import Mathlib

/-!
Verification development for the SatoshiRss plugin
(src/plugins/satoshirss/init file, class SatoshiRss).

The poll cycle `SatoshiRss.check` (lines 633-785), the history deletion
endpoint `SatoshiRss.delete_history` (lines 599-612) and the module level
lock declaration (line 25) are shallowly embedded below.  External
collaborators (RssHelper.parse, MetaInfo, recognize_media,
filter_torrents, get_no_exists_info, download_single, subscribechain) are
modelled as oracle function fields of a `Services` record, and the side
effects of a cycle (log lines named by the claims, dispatch calls,
persistence) are recorded in an explicit effect trace.
-/

namespace SatoshiRss

/-- Splitting a character list at every occurrence of a character,
accumulating the current segment in reverse.  Models the Python
`str.split(sep)` for a one character separator. -/
def splitCharList (c : Char) : List Char → List Char → List String
  | [], acc => [String.mk acc.reverse]
  | x :: xs, acc =>
    if x = c then String.mk acc.reverse :: splitCharList c xs []
    else splitCharList c xs (x :: acc)

/-- Python `s.split(c)` for a single character separator `c`:
yields `[""]` on the empty string, keeps empty segments. -/
def splitChar (c : Char) (s : String) : List String :=
  splitCharList c s.data []

/-- Helper for `splitFirst`: scan for the first occurrence of `c`. -/
def splitFirstAux (c : Char) : List Char → List Char → List String
  | [], acc => [String.mk acc.reverse]
  | x :: xs, acc =>
    if x = c then [String.mk acc.reverse, String.mk xs]
    else splitFirstAux c xs (x :: acc)

/-- Python `s.split(c, 1)`: split at the first occurrence of `c` only,
yielding one or two segments. -/
def splitFirst (c : Char) (s : String) : List String :=
  splitFirstAux c s.data []

/-- Modelled collaborator boundary (urllib.parse.urlparse): the query
component of a URL, the part after the first question mark of the part
before the first hash sign; empty when there is no question mark.
Faithful for URLs without percent escapes. -/
def urlQuery (url : String) : String :=
  let beforeFrag := (splitFirst '#' url).headD ""
  match splitFirst '?' beforeFrag with
  | [_, q] => q
  | _ => ""

/-- Modelled collaborator boundary (urllib.parse.parse_qs): the key and
value pairs of a query string, in order.  Fields are separated by
ampersands, each field is split at its first equals sign, fields without
an equals sign or with an empty value are dropped (keep_blank_values is
false).  Faithful for query strings without percent escapes or plus
signs. -/
def qsPairs (qs : String) : List (String × String) :=
  (splitChar '&' qs).filterMap fun field =>
    match splitFirst '=' field with
    | [k, v] => if v = "" then none else some (k, v)
    | _ => none

/-- First value of a query parameter, as in
`parse_qs(query).get(key, [default])[0]` without the default. -/
def parseQsGet (qs key : String) : Option String :=
  List.lookup key (qsPairs qs)

/-- A raw feed entry as produced by RssHelper.parse (title, description,
enclosure, link, size, pubdate); the Python falsy title values None and
the empty string are both modelled as the empty string. -/
structure RawEntry where
  title : String
  description : String
  enclosure : String
  link : String
  size : Nat
  pubdate : Option String
deriving Repr, DecidableEq

/-- Recognized metadata, the fields of MetaInfo that check uses:
name, the formatted season and episode descriptor (season_episode), the
season display string (season), begin_season, episode_list. -/
structure Meta where
  name : String
  seasonEpisode : String
  season : String
  beginSeason : Option Nat
  episodeList : List Nat
deriving Repr, DecidableEq

/-- Media type of a recognized media record. -/
inductive MType where
  | movie
  | tv
deriving Repr, DecidableEq

/-- The stored value of a media type, `mediainfo.type.value`. -/
def MType.val : MType → String
  | .movie => "电影"
  | .tv => "电视剧"

/-- The fields of a recognized MediaInfo used by check. -/
structure MediaInfo where
  title : String
  year : String
  mtype : MType
  tmdbId : Nat
  poster : String
  overview : String
deriving Repr, DecidableEq

/-- One season entry of the missing map (NotExistMediaInfo): the set of
missing episode numbers, empty meaning the whole season is missing. -/
structure SeasonInfo where
  episodes : List Nat
deriving Repr, DecidableEq

/-- The missing map returned by get_no_exists_info: an association of
catalog (tmdb) ids to an association of season numbers to season
entries. -/
abbrev NoExists : Type := List (Nat × List (Nat × SeasonInfo))

/-- The torrent descriptor built for an entry (TorrentInfo). -/
structure TorrentInfo where
  title : String
  description : String
  enclosure : String
  pageUrl : String
  size : Nat
  pubdate : Option String
  siteProxy : Bool
deriving Repr, DecidableEq

/-- A persisted history record, with the fields written at lines
769-778: display title, dedup key (the raw feed title), media type
value, year, poster, overview, tmdb id and timestamp. -/
structure HistoryRecord where
  title : String
  key : String
  type : String
  year : String
  poster : String
  overview : String
  tmdbid : Nat
  time : String
deriving Repr, DecidableEq

/-- The configuration fields of the plugin that check reads. -/
structure Config where
  address : String
  globalInclude : String
  globalExclude : String
  proxy : Bool
  filter : Bool
  action : String
  savePath : String
deriving Repr, DecidableEq

/-- Oracle functions for the external collaborators of check, plus the
subscription filter rule read from system configuration. -/
structure Services where
  rssParse : String → Bool → List RawEntry
  reSearchCI : String → String → Bool
  metaParse : String → String → Meta
  recognizeMedia : Meta → Option MediaInfo
  filterRule : String
  filterTorrents : String → TorrentInfo → MediaInfo → Bool
  getNoExists : Meta → MediaInfo → Bool × NoExists
  downloadSingle : Meta → MediaInfo → TorrentInfo → String → Bool
  subscribeExists : MediaInfo → Meta → Bool

/-- Observable side effects of a cycle.  The source also declares a
module level threading lock named lock (line 25); an acquisition of it
would be recorded as acquireLock, and the translation of check below
never emits that effect because the source code of check never touches
the lock. -/
inductive Effect where
  | logRss (url : String)
  | logEmptyRss (url : String)
  | logUrlDone (url : String)
  | subscribeQuery (tmdbId : Nat)
  | subscribeAdd (tmdbId : Nat) (season : Option Nat)
  | download (key : String)
  | logDownloadFail (key : String)
  | logEntryError (key : String)
  | save (records : List HistoryRecord)
  | acquireLock
deriving Repr, DecidableEq

/-- The include rule of lines 673-676: a non empty include pattern that
does not match the text rejects the entry. -/
def includeSkip (pat text : String) (m : String → String → Bool) : Bool :=
  pat != "" && !(m pat text)

/-- The exclude rule of lines 677-680: a non empty exclude pattern that
matches the text rejects the entry. -/
def excludeSkip (pat text : String) (m : String → String → Bool) : Bool :=
  pat != "" && m pat text

/-- The season and episode descriptor rule of lines 695-698: a non empty
per URL include pattern that does not match the descriptor rejects the
entry. -/
def seasonEpisodeSkip (pat desc : String) (m : String → String → Bool) : Bool :=
  pat != "" && !(m pat desc)

/-- The effective include pattern for a URL, line 648: the first value
of the include query parameter when present, otherwise the global
include setting. -/
def effIncludeFor (cfg : Config) (url : String) : String :=
  (parseQsGet (urlQuery url) "include").getD cfg.globalInclude

/-- The effective exclude pattern for a URL, line 649: the first value
of the exclude query parameter when present, otherwise the global
exclude setting.  The source computes this value but never reads it. -/
def effExcludeFor (cfg : Config) (url : String) : String :=
  (parseQsGet (urlQuery url) "exclude").getD cfg.globalExclude

/-- The requested season on the download path, line 733:
`meta.begin_season or 1`, where the Python falsy values none and zero
both default to one. -/
def effSeason (meta : Meta) : Nat :=
  match meta.beginSeason with
  | none => 1
  | some 0 => 1
  | some s => s

/-- Outcome of the series coverage gate of lines 732-740. -/
inductive GateOut where
  | err
  | skipSeason
  | skipEpisodes
  | proceed
deriving Repr, DecidableEq

/-- The series coverage gate of lines 732-740, entered when the missing
map is non empty: look up the catalog id (a missing id raises an
attribute error on the following lookup, caught by the per entry
handler), then the requested season; an absent season skips, and a
season entry with a non empty episode list that is not a superset of
the requested episode list skips. -/
def tvGate (meta : Meta) (mi : MediaInfo) (ne : NoExists) : GateOut :=
  match List.lookup mi.tmdbId ne with
  | none => .err
  | some existInfo =>
    match List.lookup (effSeason meta) existInfo with
    | none => .skipSeason
    | some si =>
      if !si.episodes.isEmpty
          && !(meta.episodeList.all fun ep => si.episodes.contains ep) then
        .skipEpisodes
      else .proceed

/-- The torrent descriptor built at lines 704-712. -/
def mkTorrent (cfg : Config) (e : RawEntry) : TorrentInfo :=
  { title := e.title
    description := e.description
    enclosure := e.enclosure
    pageUrl := e.link
    size := e.size
    pubdate := e.pubdate
    siteProxy := cfg.proxy }

/-- The history record appended at lines 769-778. -/
def mkRecord (mi : MediaInfo) (meta : Meta) (title now : String) : HistoryRecord :=
  { title := mi.title ++ " " ++ meta.season
    key := title
    type := mi.mtype.val
    year := mi.year
    poster := mi.poster
    overview := mi.overview
    tmdbid := mi.tmdbId
    time := now }

/-- The download call of lines 742-753: invoke download_single; on a
false result log the failure and skip without a history record, on
success append a history record. -/
def doDownload (cfg : Config) (svc : Services) (meta : Meta) (mi : MediaInfo)
    (e : RawEntry) (now : String) : List Effect × Option HistoryRecord :=
  if svc.downloadSingle meta mi (mkTorrent cfg e) cfg.savePath then
    ([.download e.title], some (mkRecord mi meta e.title now))
  else
    ([.download e.title, .logDownloadFail e.title], none)

/-- The per entry pipeline, lines 662-778: dedup check against the
history keys, global include and exclude text rules over the title and
description joined by a single space, metadata recognition, the season
and episode descriptor rule with the effective per URL include, media
recognition, the optional torrent rule filter, the existence check, and
dispatch by the configured action; returns the emitted effects and the
history record appended on success. -/
def processEntry (cfg : Config) (svc : Services) (urlInclude : String)
    (history : List HistoryRecord) (e : RawEntry) (now : String) :
    List Effect × Option HistoryRecord :=
  let text := e.title ++ " " ++ e.description
  if e.title == "" || history.any fun h => h.key == e.title then ([], none)
  else if includeSkip cfg.globalInclude text svc.reSearchCI then ([], none)
  else if excludeSkip cfg.globalExclude text svc.reSearchCI then ([], none)
  else
    let meta := svc.metaParse e.title e.description
    if meta.name == "" then ([], none)
    else if seasonEpisodeSkip urlInclude meta.seasonEpisode svc.reSearchCI then
      ([], none)
    else
      match svc.recognizeMedia meta with
      | none => ([], none)
      | some mi =>
        if cfg.filter && !(svc.filterTorrents svc.filterRule (mkTorrent cfg e) mi) then
          ([], none)
        else
          match svc.getNoExists meta mi with
          | (true, _) => ([], none)
          | (false, ne) =>
            if cfg.action == "download" then
              if mi.mtype == .tv && !(ne.isEmpty) then
                match tvGate meta mi ne with
                | .err => ([.logEntryError e.title], none)
                | .skipSeason => ([], none)
                | .skipEpisodes => ([], none)
                | .proceed => doDownload cfg svc meta mi e now
              else doDownload cfg svc meta mi e now
            else
              if svc.subscribeExists mi meta then
                ([.subscribeQuery mi.tmdbId], none)
              else
                ([.subscribeQuery mi.tmdbId, .subscribeAdd mi.tmdbId meta.beginSeason],
                  some (mkRecord mi meta e.title now))

/-- The inner loop over the parsed entries of one URL, lines 661-780:
each entry is processed in feed order against the accumulated history,
and a produced record is appended before the next entry is handled. -/
def processResults (cfg : Config) (svc : Services) (urlInclude : String)
    (now : String) : List RawEntry → List HistoryRecord →
    List Effect × List HistoryRecord
  | [], history => ([], history)
  | e :: es, history =>
    let r := processEntry cfg svc urlInclude history e now
    let history₂ := match r.2 with
      | some rec => history ++ [rec]
      | none => history
    let rest := processResults cfg svc urlInclude now es history₂
    (r.1 ++ rest.1, rest.2)

/-- The outer loop over the configured URLs, lines 644-781: per URL the
include and exclude overrides are computed, an empty URL is skipped, the
feed is fetched, and an empty fetch result logs an error and aborts the
whole remaining cycle (the source returns from check there, line 657),
signalled by a none history result. -/
def processUrls (cfg : Config) (svc : Services) (now : String) :
    List String → List HistoryRecord →
    List Effect × Option (List HistoryRecord)
  | [], history => ([], some history)
  | url :: rest, history =>
    let urlInclude := effIncludeFor cfg url
    let _urlExclude := effExcludeFor cfg url
    if url == "" then processUrls cfg svc now rest history
    else
      let results := svc.rssParse url cfg.proxy
      if results.isEmpty then ([.logRss url, .logEmptyRss url], none)
      else
        let r := processResults cfg svc urlInclude now results history
        let after := processUrls cfg svc now rest r.2
        (.logRss url :: r.1 ++ [.logUrlDone url] ++ after.1, after.2)

/-- Persistent plugin state: the stored history collection and the one
shot clear flag. -/
structure PState where
  stored : List HistoryRecord
  clearflag : Bool
deriving Repr, DecidableEq

/-- The poll cycle check, lines 633-785: a no op without configured
addresses; the effective history is empty while the clear flag is set,
otherwise the stored collection; the address list is the newline split
of the address setting; when every URL is processed the accumulated
history is saved once and the clear flag is reset, while an aborted
cycle leaves the state untouched. -/
def check (cfg : Config) (svc : Services) (now : String) (st : PState) :
    List Effect × PState :=
  if cfg.address == "" then ([], st)
  else
    let history₀ := if st.clearflag then [] else st.stored
    match processUrls cfg svc now (splitChar '\n' cfg.address) history₀ with
    | (effs, none) => (effs, st)
    | (effs, some h) =>
      (effs ++ [.save h], { stored := h, clearflag := false })

/-- Response of the deletion endpoint. -/
structure DHResponse where
  success : Bool
  message : String
deriving Repr, DecidableEq

/-- The deletion endpoint delete_history, lines 599-612: an invalid api
key is rejected; an empty stored collection reports a not found
message; otherwise every record whose display title equals the key is
removed, the result is saved, and success is reported regardless of
whether any record matched. -/
def delete_history (apiToken : String) (stored : List HistoryRecord)
    (key apikey : String) : DHResponse × List HistoryRecord :=
  if apikey != apiToken then
    ({ success := false, message := "API密钥错误" }, stored)
  else if stored.isEmpty then
    ({ success := false, message := "未找到历史记录" }, stored)
  else
    ({ success := true, message := "删除成功" },
      stored.filter fun h => h.title != key)

/-!  Helper lemmas about the shapes of cycle traces and history lists. -/

/-- Effects that the per entry pipeline can emit. -/
def entryEffect : Effect → Bool
  | .subscribeQuery _ => true
  | .subscribeAdd _ _ => true
  | .download _ => true
  | .logDownloadFail _ => true
  | .logEntryError _ => true
  | _ => false

/-- Effects that the URL loop can emit: everything except persistence
and lock operations, which the loop body never performs. -/
def cycleEffectOk : Effect → Bool
  | .save _ => false
  | .acquireLock => false
  | _ => true

/-- Whether an effect is a persistence call. -/
def isSave : Effect → Bool
  | .save _ => true
  | _ => false

/-- Whether an effect is an acquisition of the module level lock. -/
def isLockAcquire : Effect → Bool
  | .acquireLock => true
  | _ => false

theorem entryEffect_cycleOk : ∀ x, entryEffect x = true → cycleEffectOk x = true := by
  intro x hx
  cases x <;> simp_all [entryEffect, cycleEffectOk]

theorem processEntry_effect_mem (cfg : Config) (svc : Services) (u : String)
    (hist : List HistoryRecord) (e : RawEntry) (now : String) :
    ∀ x ∈ (processEntry cfg svc u hist e now).1, entryEffect x = true := by
  intro x hx
  simp only [processEntry, doDownload] at hx
  repeat' split at hx
  all_goals simp_all [entryEffect]
  all_goals rcases hx with rfl | rfl <;> rfl

theorem processResults_effect_mem (cfg : Config) (svc : Services) (u : String)
    (now : String) (es : List RawEntry) (hist : List HistoryRecord) :
    ∀ x ∈ (processResults cfg svc u now es hist).1, entryEffect x = true := by
  induction es generalizing hist with
  | nil => intro x hx; simp [processResults] at hx
  | cons e es ih =>
    intro x hx
    unfold processResults at hx
    simp only [List.mem_append] at hx
    rcases hx with hx | hx
    · exact processEntry_effect_mem cfg svc u hist e now x hx
    · exact ih _ x hx

theorem processUrls_effect_mem (cfg : Config) (svc : Services) (now : String)
    (urls : List String) (hist : List HistoryRecord) :
    ∀ x ∈ (processUrls cfg svc now urls hist).1, cycleEffectOk x = true := by
  induction urls generalizing hist with
  | nil => intro x hx; simp [processUrls] at hx
  | cons url rest ih =>
    intro x hx
    simp only [processUrls] at hx
    split at hx
    · exact ih hist x hx
    · split at hx
      · simp only [List.mem_cons, List.mem_singleton] at hx
        rcases hx with rfl | rfl | h
        · rfl
        · rfl
        · cases h
      · rcases List.mem_cons.mp hx with rfl | hx₂
        · rfl
        · rcases List.mem_append.mp hx₂ with hx₃ | hx₃
          · rcases List.mem_append.mp hx₃ with hx₄ | hx₄
            · exact entryEffect_cycleOk x (processResults_effect_mem cfg svc _ now _ hist x hx₄)
            · rcases List.mem_singleton.mp hx₄ with rfl
              rfl
          · exact ih _ x hx₃

/-- The entry loop only appends to the history list. -/
theorem processResults_append (cfg : Config) (svc : Services) (u : String)
    (now : String) (es : List RawEntry) (hist : List HistoryRecord) :
    ∃ tl, (processResults cfg svc u now es hist).2 = hist ++ tl := by
  induction es generalizing hist with
  | nil => exact ⟨[], by simp [processResults]⟩
  | cons e es ih =>
    unfold processResults
    rcases h : (processEntry cfg svc u hist e now).2 with _ | rec
    · rcases ih hist with ⟨tl, htl⟩
      exact ⟨tl, by simp [h, htl]⟩
    · rcases ih (hist ++ [rec]) with ⟨tl, htl⟩
      exact ⟨[rec] ++ tl, by simp [h, htl]⟩

/-- A completed URL loop only appends to the history list. -/
theorem processUrls_append (cfg : Config) (svc : Services) (now : String)
    (urls : List String) (hist hist₂ : List HistoryRecord)
    (h : (processUrls cfg svc now urls hist).2 = some hist₂) :
    ∃ tl, hist₂ = hist ++ tl := by
  induction urls generalizing hist with
  | nil =>
    simp [processUrls] at h
    exact ⟨[], by simp [h]⟩
  | cons url rest ih =>
    simp only [processUrls] at h
    split at h
    · exact ih hist h
    · split at h
      · simp at h
      · simp only at h
        rcases processResults_append cfg svc (effIncludeFor cfg url) now
          (svc.rssParse url cfg.proxy) hist with ⟨tl₁, htl₁⟩
        rcases ih _ h with ⟨tl₂, htl₂⟩
        exact ⟨tl₁ ++ tl₂, by rw [htl₂, htl₁, List.append_assoc]⟩

/-- Processing a concatenation of URL lists is processing the first part
and, when it completes, continuing with the second on its history. -/
theorem processUrls_split (cfg : Config) (svc : Services) (now : String)
    (pre urls₂ : List String) (hist : List HistoryRecord) :
    processUrls cfg svc now (pre ++ urls₂) hist =
      match processUrls cfg svc now pre hist with
      | (effs, none) => (effs, none)
      | (effs, some h₂) =>
        ((effs ++ (processUrls cfg svc now urls₂ h₂).1),
          (processUrls cfg svc now urls₂ h₂).2) := by
  induction pre generalizing hist with
  | nil => simp [processUrls]
  | cons url rest ih =>
    simp only [List.cons_append, processUrls]
    by_cases hurl : (url == "") = true
    · simp only [if_pos hurl]
      exact ih hist
    · simp only [if_neg hurl]
      by_cases hres : (svc.rssParse url cfg.proxy).isEmpty = true
      · simp only [if_pos hres]
      · simp only [if_neg hres, List.append_eq]
        rw [ih]
        rcases hp : processUrls cfg svc now rest
            (processResults cfg svc (effIncludeFor cfg url) now
              (svc.rssParse url cfg.proxy) hist).2 with ⟨effs, out⟩
        cases out <;> simp [hp, List.append_assoc]

/-- A URL list whose non empty members all fetch entries completes. -/
theorem processUrls_ok_some (cfg : Config) (svc : Services) (now : String)
    (urls : List String) (hist : List HistoryRecord)
    (h : ∀ v ∈ urls, v = "" ∨ svc.rssParse v cfg.proxy ≠ []) :
    ∃ effs hist₂, processUrls cfg svc now urls hist = (effs, some hist₂) := by
  induction urls generalizing hist with
  | nil => exact ⟨[], hist, rfl⟩
  | cons url rest ih =>
    have hrest : ∀ v ∈ rest, v = "" ∨ svc.rssParse v cfg.proxy ≠ [] :=
      fun v hv => h v (List.mem_cons_of_mem url hv)
    simp only [processUrls]
    by_cases hurl : (url == "") = true
    · simp only [if_pos hurl]
      exact ih hist hrest
    · simp only [if_neg hurl]
      rcases h url (List.mem_cons_self url rest) with rfl | hnil
      · simp at hurl
      · have hne : ((svc.rssParse url cfg.proxy).isEmpty = true) = False := by
          simp [List.isEmpty_iff, hnil]
        simp only [hne, if_false]
        rcases ih ((processResults cfg svc (effIncludeFor cfg url) now
            (svc.rssParse url cfg.proxy) hist).2) hrest with ⟨effs, hist₂, hres⟩
        exact ⟨_, hist₂, by rw [hres]⟩

/-!  Concrete fixtures used by witnesses and counterexamples. -/

/-- Whether a character list starts with another one. -/
def leadsWith : List Char → List Char → Bool
  | [], _ => true
  | _ :: _, [] => false
  | x :: xs, y :: ys => x == y && leadsWith xs ys

/-- Whether a character list occurs inside another one. -/
def occursIn (pat : List Char) : List Char → Bool
  | [] => leadsWith pat []
  | y :: ys => leadsWith pat (y :: ys) || occursIn pat ys

/-- A concrete matcher standing in for the case insensitive regular
expression search: plain substring matching, enough for witnesses whose
patterns are literal strings. -/
def wMatch (pat text : String) : Bool := occursIn pat.data text.data

/-- A concrete feed entry. -/
def wEntry : RawEntry :=
  { title := "Show.Name.S01E01.1080p", description := "x264", enclosure := "http://e",
    link := "http://l", size := 100, pubdate := none }

/-- The recognized metadata of the concrete entry. -/
def wMeta : Meta :=
  { name := "Show Name", seasonEpisode := "S01E01", season := "S01",
    beginSeason := some 1, episodeList := [1] }

/-- The recognized media record of the concrete entry. -/
def wMedia : MediaInfo :=
  { title := "Show Name", year := "2024", mtype := .tv, tmdbId := 77,
    poster := "p", overview := "o" }

/-- Concrete collaborator services: one entry per feed, substring
matching, fixed recognition results, a missing map listing episodes one
and two of season one, successful downloads, no existing
subscription. -/
def wSvc : Services :=
  { rssParse := fun _ _ => [wEntry]
    reSearchCI := wMatch
    metaParse := fun _ _ => wMeta
    recognizeMedia := fun _ => some wMedia
    filterRule := ""
    filterTorrents := fun _ _ _ => true
    getNoExists := fun _ _ => (false, [(77, [(1, { episodes := [1, 2] })])])
    downloadSingle := fun _ _ _ _ => true
    subscribeExists := fun _ _ => false }

/-- A concrete configuration with one feed URL and the subscribe
action. -/
def wCfg : Config :=
  { address := "http://h/f", globalInclude := "", globalExclude := "",
    proxy := false, filter := false, action := "subscribe", savePath := "" }

/-- The history record the concrete entry produces. -/
def wRec : HistoryRecord := mkRecord wMedia wMeta wEntry.title "t"

/-!  Claims. -/

/-- C2: a feed entry whose raw title already appears as a dedup key in
the loaded history is never dispatched: the per entry pipeline emits no
effect at all (in particular no subscribe and no download call) and
appends no history record, so repeated cycles over unchanged feed
content re dispatch nothing. -/
theorem c2_dedup_skip (cfg : Config) (svc : Services) (u : String)
    (hist : List HistoryRecord) (e : RawEntry) (now : String)
    (h : ∃ r ∈ hist, r.key = e.title) :
    processEntry cfg svc u hist e now = ([], none) := by
  rcases h with ⟨r, hr, hkey⟩
  have hany : hist.any (fun h => h.key == e.title) = true :=
    List.any_eq_true.mpr ⟨r, hr, by simp [hkey]⟩
  simp [processEntry, hany]

/-- Witness for C2 at a concrete input: with the history already
holding a record keyed by the raw entry title, the pipeline produces no
effects and no record. -/
theorem c2_witness : processEntry wCfg wSvc "" [wRec] wEntry "t" = ([], none) :=
  c2_dedup_skip wCfg wSvc "" [wRec] wEntry "t"
    ⟨wRec, List.mem_singleton.mpr rfl, rfl⟩

/-- C3: text filtering runs the case insensitive matcher over the title
and description joined by a single space: an empty include pattern
never causes an include skip, an empty exclude pattern never causes an
exclude skip, and an entry whose text is matched by a non empty global
exclude pattern is dropped by the pipeline with no effects and no
record, regardless of the include outcome. -/
theorem c3_text_filters (cfg : Config) (svc : Services) (u : String)
    (hist : List HistoryRecord) (e : RawEntry) (now : String)
    (hex : cfg.globalExclude ≠ "")
    (hm : svc.reSearchCI cfg.globalExclude (e.title ++ " " ++ e.description) = true) :
    includeSkip "" (e.title ++ " " ++ e.description) svc.reSearchCI = false
    ∧ excludeSkip "" (e.title ++ " " ++ e.description) svc.reSearchCI = false
    ∧ processEntry cfg svc u hist e now = ([], none) := by
  refine ⟨rfl, rfl, ?_⟩
  have h₂ : excludeSkip cfg.globalExclude (e.title ++ " " ++ e.description)
      svc.reSearchCI = true := by
    simp [excludeSkip, bne_iff_ne, hex, hm]
  by_cases h₁ : (e.title == "" || hist.any fun h => h.key == e.title) = true
  · simp [processEntry, h₁]
  · by_cases h₃ : includeSkip cfg.globalInclude (e.title ++ " " ++ e.description)
        svc.reSearchCI = true
    · simp [processEntry, h₁, h₃]
    · simp [processEntry, h₁, h₃, h₂]

/-- Witness for C3 at a concrete input: the global exclude pattern 264
matches the text of the entry (which the empty include lets through),
and the entry is dropped. -/
theorem c3_witness :
    includeSkip "" (wEntry.title ++ " " ++ wEntry.description) wMatch = false
    ∧ excludeSkip "" (wEntry.title ++ " " ++ wEntry.description) wMatch = false
    ∧ processEntry { wCfg with globalExclude := "264" } wSvc "" [] wEntry "t"
        = ([], none) :=
  c3_text_filters { wCfg with globalExclude := "264" } wSvc "" [] wEntry "t"
    (by decide) (by decide)

/-- C9 counterexample: with a valid token, a non empty stored history
and a key matching no record, the endpoint reports success, not a not
found outcome, while rewriting the collection with identical
contents. -/
theorem c9_counterexample :
    (wRec.title == "Nope") = false
    ∧ delete_history "k" [wRec] "Nope" "k"
        = ({ success := true, message := "删除成功" }, [wRec]) := by
  constructor
  · decide
  · decide

/-- C9 amended: deleting with a valid token and a key matching no
stored record leaves the stored contents unchanged; a not found outcome
is reported only when the stored history is empty, and otherwise the
endpoint reports success even though nothing was removed. -/
theorem c9_delete_no_match (tok key : String) (stored : List HistoryRecord)
    (h : ∀ r ∈ stored, r.title ≠ key) :
    delete_history tok stored key tok =
      (if stored.isEmpty then
        ({ success := false, message := "未找到历史记录" } : DHResponse)
       else { success := true, message := "删除成功" }, stored) := by
  have hfil : stored.filter (fun r => r.title != key) = stored :=
    List.filter_eq_self.mpr (by intro r hr; simp [bne_iff_ne, h r hr])
  unfold delete_history
  by_cases hemp : stored.isEmpty = true
  · simp [hemp]
  · simp [hemp, hfil]

/-- Witness for C9 amended at a concrete input: one stored record, a
key matching nothing, a valid token. -/
theorem c9_witness :
    delete_history "k" [wRec] "Nope" "k"
      = (if ([wRec] : List HistoryRecord).isEmpty then
          ({ success := false, message := "未找到历史记录" } : DHResponse)
         else { success := true, message := "删除成功" }, [wRec]) :=
  c9_delete_no_match "k" "Nope" [wRec] (by decide)

/-- Helper: a lock acquisition never occurs in a trace of check. -/
theorem check_lock_not_mem (cfg : Config) (svc : Services) (now : String) (st : PState) :
    Effect.acquireLock ∉ (check cfg svc now st).1 := by
  intro hmem
  simp only [check] at hmem
  split at hmem
  · cases hmem
  · split at hmem
    · rename_i effs _ heq
      have := processUrls_effect_mem cfg svc now (splitChar '\n' cfg.address)
        (if st.clearflag then [] else st.stored) Effect.acquireLock (by rw [heq]; exact hmem)
      simp [cycleEffectOk] at this
    · rename_i effs h heq
      rcases List.mem_append.mp hmem with hx | hx
      · have := processUrls_effect_mem cfg svc now (splitChar '\n' cfg.address)
          (if st.clearflag then [] else st.stored) Effect.acquireLock (by rw [heq]; exact hx)
        simp [cycleEffectOk] at this
      · simp at hx

/-- C10: no trace of the poll cycle holds an acquisition of the module
level lock: the source declares the lock but check never takes it, for
the one shot run and the scheduled run alike, since both invoke check
directly. -/
theorem c10_no_lock (cfg : Config) (svc : Services) (now : String) (st : PState) :
    ((check cfg svc now st).1.countP isLockAcquire) = 0 :=
  List.countP_eq_zero.mpr fun a ha hpa => by
    have haq : a = Effect.acquireLock := by cases a <;> simp_all [isLockAcquire]
    exact check_lock_not_mem cfg svc now st (haq ▸ ha)

/-- C5: a series candidate on the download path whose requested season
is absent from the missing map entry of its catalog id, or whose season
entry lists episodes that are not a superset of the candidate episode
list, is skipped as already satisfied: the pipeline emits no effect (in
particular no download call) and appends no history record. -/
theorem c5_series_covered (cfg : Config) (svc : Services) (u : String)
    (hist : List HistoryRecord) (e : RawEntry) (now : String)
    (mi : MediaInfo) (ne : NoExists) (ei : List (Nat × SeasonInfo))
    (h₀ : e.title ≠ "")
    (h₁ : ∀ r ∈ hist, r.key ≠ e.title)
    (h₂ : includeSkip cfg.globalInclude (e.title ++ " " ++ e.description)
      svc.reSearchCI = false)
    (h₃ : excludeSkip cfg.globalExclude (e.title ++ " " ++ e.description)
      svc.reSearchCI = false)
    (h₄ : (svc.metaParse e.title e.description).name ≠ "")
    (h₅ : seasonEpisodeSkip u (svc.metaParse e.title e.description).seasonEpisode
      svc.reSearchCI = false)
    (h₆ : svc.recognizeMedia (svc.metaParse e.title e.description) = some mi)
    (h₇ : (cfg.filter && !(svc.filterTorrents svc.filterRule (mkTorrent cfg e) mi))
      = false)
    (h₈ : svc.getNoExists (svc.metaParse e.title e.description) mi = (false, ne))
    (h₉ : cfg.action = "download")
    (h10 : mi.mtype = .tv)
    (h11 : ne ≠ [])
    (h12 : List.lookup mi.tmdbId ne = some ei)
    (h13 : List.lookup (effSeason (svc.metaParse e.title e.description)) ei = none
      ∨ ∃ si, List.lookup (effSeason (svc.metaParse e.title e.description)) ei = some si
          ∧ si.episodes ≠ []
          ∧ ¬ ∀ ep ∈ (svc.metaParse e.title e.description).episodeList,
              ep ∈ si.episodes) :
    processEntry cfg svc u hist e now = ([], none) := by
  have hded : (e.title == "" || hist.any fun h => h.key == e.title) = false := by
    simp only [Bool.or_eq_false_iff]
    refine ⟨by simp [h₀], ?_⟩
    simp only [List.any_eq_false]
    intro r hr
    simp [h₁ r hr]
  have hname : ((svc.metaParse e.title e.description).name == "") = false := by
    simp [h₄]
  have hne : ne.isEmpty = false := by
    cases ne with
    | nil => exact absurd rfl h11
    | cons a l => rfl
  have hgate : tvGate (svc.metaParse e.title e.description) mi ne = GateOut.skipSeason
      ∨ tvGate (svc.metaParse e.title e.description) mi ne = GateOut.skipEpisodes := by
    rcases h13 with hnone | ⟨si, hsi, hne₂, hnsub⟩
    · left
      simp [tvGate, h12, hnone]
    · right
      have heps : si.episodes.isEmpty = false := by
        cases hE : si.episodes with
        | nil => exact absurd hE hne₂
        | cons a l => rfl
      have hall : ((svc.metaParse e.title e.description).episodeList.all
          fun ep => si.episodes.contains ep) = false := by
        rw [Bool.eq_false_iff]
        intro hT
        apply hnsub
        intro ep hep
        simpa using List.all_eq_true.mp hT ep hep
      have hcond : (!si.episodes.isEmpty
          && !((svc.metaParse e.title e.description).episodeList.all
            fun ep => si.episodes.contains ep)) = true := by
        rw [heps, hall]
        rfl
      simp only [tvGate, h12, hsi, hcond, if_true]
  rcases hgate with hg | hg <;>
    simp [processEntry, hded, h₂, h₃, hname, h₅, h₆, h₇, h₈, h₉, h10, hne, hg]

/-- Witness for C5 at a concrete input: the missing map lists only
episode two of season one while the candidate asks for episode one, so
the download path skips the entry. -/
theorem c5_witness :
    processEntry { wCfg with action := "download" }
      { wSvc with getNoExists := fun _ _ => (false, [(77, [(1, ⟨[2]⟩)])]) }
      "" [] wEntry "t" = ([], none) :=
  c5_series_covered { wCfg with action := "download" }
    { wSvc with getNoExists := fun _ _ => (false, [(77, [(1, ⟨[2]⟩)])]) }
    "" [] wEntry "t" wMedia [(77, [(1, ⟨[2]⟩)])] [(1, ⟨[2]⟩)]
    (by decide) (by intro r hr; cases hr) (by decide) (by decide) (by decide)
    (by decide) (by decide) (by decide) (by decide) (by decide) (by decide)
    (by decide) (by decide)
    (Or.inr ⟨⟨[2]⟩, by decide, by decide, by decide⟩)

/-- C6: on the download path, a download service failure skips the
entry: the trace records the download attempt and the failure log, and
no history record is appended, so the dedup key of the entry stays
absent from the accumulated history and the entry stays eligible. -/
theorem c6_download_failure (cfg : Config) (svc : Services) (u : String)
    (hist : List HistoryRecord) (e : RawEntry) (now : String)
    (mi : MediaInfo) (ne : NoExists)
    (h₀ : e.title ≠ "")
    (h₁ : ∀ r ∈ hist, r.key ≠ e.title)
    (h₂ : includeSkip cfg.globalInclude (e.title ++ " " ++ e.description)
      svc.reSearchCI = false)
    (h₃ : excludeSkip cfg.globalExclude (e.title ++ " " ++ e.description)
      svc.reSearchCI = false)
    (h₄ : (svc.metaParse e.title e.description).name ≠ "")
    (h₅ : seasonEpisodeSkip u (svc.metaParse e.title e.description).seasonEpisode
      svc.reSearchCI = false)
    (h₆ : svc.recognizeMedia (svc.metaParse e.title e.description) = some mi)
    (h₇ : (cfg.filter && !(svc.filterTorrents svc.filterRule (mkTorrent cfg e) mi))
      = false)
    (h₈ : svc.getNoExists (svc.metaParse e.title e.description) mi = (false, ne))
    (h₉ : cfg.action = "download")
    (hGate : (mi.mtype == MType.tv && !ne.isEmpty) = false
      ∨ tvGate (svc.metaParse e.title e.description) mi ne = GateOut.proceed)
    (hfail : svc.downloadSingle (svc.metaParse e.title e.description) mi
      (mkTorrent cfg e) cfg.savePath = false) :
    processEntry cfg svc u hist e now
      = ([.download e.title, .logDownloadFail e.title], none) := by
  have hded : (e.title == "" || hist.any fun h => h.key == e.title) = false := by
    simp only [Bool.or_eq_false_iff]
    refine ⟨by simp [h₀], ?_⟩
    simp only [List.any_eq_false]
    intro r hr
    simp [h₁ r hr]
  have hname : ((svc.metaParse e.title e.description).name == "") = false := by
    simp [h₄]
  rcases hGate with hg | hg <;>
    simp [processEntry, doDownload, hded, h₂, h₃, hname, h₅, h₆, h₇, h₈, h₉,
      hg, hfail]

/-- Witness for C6 at a concrete input: the download service reports
failure, the trace shows the attempt and the failure log, and no record
is produced. -/
theorem c6_witness :
    processEntry { wCfg with action := "download" }
      { wSvc with downloadSingle := fun _ _ _ _ => false } "" [] wEntry "t"
      = ([.download wEntry.title, .logDownloadFail wEntry.title], none) :=
  c6_download_failure { wCfg with action := "download" }
    { wSvc with downloadSingle := fun _ _ _ _ => false }
    "" [] wEntry "t" wMedia [(77, [(1, ⟨[1, 2]⟩)])]
    (by decide) (by intro r hr; cases hr) (by decide) (by decide) (by decide)
    (by decide) (by decide) (by decide) (by decide) (by decide)
    (Or.inr (by decide)) (by decide)

/-- C7 counterexample: the feed URL carries no include query parameter,
the entry passes the global text include, and the cycle nevertheless
skips it through the season and episode descriptor rule (the trace
holds no subscribe query, no dispatch and an empty save), because the
effective descriptor pattern falls back to the global include. -/
theorem c7_counterexample :
    parseQsGet (urlQuery "http://h/f") "include" = none
    ∧ includeSkip "1080p" (wEntry.title ++ " " ++ wEntry.description) wMatch = false
    ∧ seasonEpisodeSkip (effIncludeFor { wCfg with globalInclude := "1080p" }
        "http://h/f") wMeta.seasonEpisode wMatch = true
    ∧ check { wCfg with globalInclude := "1080p" } wSvc "t" ⟨[], false⟩
        = ([.logRss "http://h/f", .logUrlDone "http://h/f", .save []],
          ⟨[], false⟩) := by
  refine ⟨by decide, by decide, by decide, by decide⟩

/-- C7 amended: the season and episode descriptor rule is governed by
the effective include pattern of the URL, the include query parameter
when present and the global include otherwise: whenever that pattern is
non empty and does not match the descriptor the entry is dropped with
no effects and no record, a URL without the parameter uses the global
include, and an empty effective pattern never causes a descriptor
skip. -/
theorem c7_descriptor_filter (cfg : Config) (svc : Services) (url : String)
    (hist : List HistoryRecord) (e : RawEntry) (now : String) :
    (seasonEpisodeSkip (effIncludeFor cfg url)
        (svc.metaParse e.title e.description).seasonEpisode svc.reSearchCI = true →
      processEntry cfg svc (effIncludeFor cfg url) hist e now = ([], none))
    ∧ (parseQsGet (urlQuery url) "include" = none →
        effIncludeFor cfg url = cfg.globalInclude)
    ∧ (∀ desc m, seasonEpisodeSkip "" desc m = false) := by
  refine ⟨?_, ?_, fun desc m => rfl⟩
  · intro hskip
    by_cases h₁ : (e.title == "" || hist.any fun h => h.key == e.title) = true
    · simp [processEntry, h₁]
    · by_cases h₂ : includeSkip cfg.globalInclude (e.title ++ " " ++ e.description)
          svc.reSearchCI = true
      · simp [processEntry, h₁, h₂]
      · by_cases h₃ : excludeSkip cfg.globalExclude (e.title ++ " " ++ e.description)
            svc.reSearchCI = true
        · simp [processEntry, h₁, h₂, h₃]
        · by_cases h₄ : ((svc.metaParse e.title e.description).name == "") = true
          · simp [processEntry, h₁, h₂, h₃, h₄]
          · simp [processEntry, h₁, h₂, h₃, h₄, hskip]
  · intro hq
    simp [effIncludeFor, hq]

/-- Witness for C7 amended at a concrete input: a URL without an
include parameter falls back to the global include, and with that
non matching pattern the concrete entry is dropped. -/
theorem c7_witness :
    processEntry { wCfg with globalInclude := "1080p" } wSvc
        (effIncludeFor { wCfg with globalInclude := "1080p" } "http://h/f")
        [] wEntry "t" = ([], none)
    ∧ effIncludeFor { wCfg with globalInclude := "1080p" } "http://h/f" = "1080p"
    ∧ seasonEpisodeSkip "" "S01E01" wMatch = false :=
  ⟨(c7_descriptor_filter { wCfg with globalInclude := "1080p" } wSvc "http://h/f"
      [] wEntry "t").1 (by decide),
   (c7_descriptor_filter { wCfg with globalInclude := "1080p" } wSvc "http://h/f"
      [] wEntry "t").2.1 (by decide),
   (c7_descriptor_filter { wCfg with globalInclude := "1080p" } wSvc "http://h/f"
      [] wEntry "t").2.2 "S01E01" wMatch⟩

/-- The dispatch level effects of a trace, with the per URL log lines
removed. -/
def dispatchEffects (l : List Effect) : List Effect :=
  l.filter entryEffect

/-- The trace and outcome of one non empty URL. -/
theorem processUrls_one (cfg : Config) (svc : Services) (now u : String)
    (hist : List HistoryRecord) (hu : ¬(u == "") = true) :
    processUrls cfg svc now [u] hist =
      if (svc.rssParse u cfg.proxy).isEmpty = true then
        ([.logRss u, .logEmptyRss u], none)
      else
        (.logRss u :: (processResults cfg svc (effIncludeFor cfg u) now
            (svc.rssParse u cfg.proxy) hist).1 ++ [.logUrlDone u],
          some (processResults cfg svc (effIncludeFor cfg u) now
            (svc.rssParse u cfg.proxy) hist).2) := by
  simp only [processUrls, if_neg hu]
  by_cases hres : (svc.rssParse u cfg.proxy).isEmpty = true
  · simp [hres]
  · simp [hres, processUrls]

/-- C8 counterexample: the feed URL carries an exclude query parameter
whose value matches the entry text, and the entry is dispatched and
recorded anyway: the per URL exclude override of the claim does not
exist in the code. -/
theorem c8_counterexample :
    parseQsGet (urlQuery "http://h/f?exclude=1080p") "exclude" = some "1080p"
    ∧ wMatch "1080p" (wEntry.title ++ " " ++ wEntry.description) = true
    ∧ check { wCfg with address := "http://h/f?exclude=1080p" } wSvc "t" ⟨[], false⟩
        = ([.logRss "http://h/f?exclude=1080p", .subscribeQuery 77,
            .subscribeAdd 77 (some 1), .logUrlDone "http://h/f?exclude=1080p",
            .save [wRec]], ⟨[wRec], false⟩) := by
  refine ⟨by decide, by decide, by decide⟩

/-- C8 amended: the exclude query parameter of a URL is parsed but has
no effect on processing: a URL without the parameter falls back to the
global exclude, and two non empty URLs with the same fetched entries
and the same effective include pattern produce the same history outcome
and the same dispatch effects whatever their exclude parameters are;
text filtering always uses the global patterns. -/
theorem c8_per_url_exclude_ignored (cfg : Config) (svc : Services) (now : String)
    (url u₁ u₂ : String) (hist : List HistoryRecord)
    (hu₁ : u₁ ≠ "") (hu₂ : u₂ ≠ "")
    (hr : svc.rssParse u₁ cfg.proxy = svc.rssParse u₂ cfg.proxy)
    (hi : effIncludeFor cfg u₁ = effIncludeFor cfg u₂) :
    (parseQsGet (urlQuery url) "exclude" = none →
      effExcludeFor cfg url = cfg.globalExclude)
    ∧ (processUrls cfg svc now [u₁] hist).2 = (processUrls cfg svc now [u₂] hist).2
    ∧ dispatchEffects (processUrls cfg svc now [u₁] hist).1
      = dispatchEffects (processUrls cfg svc now [u₂] hist).1 := by
  have hb₁ : ¬(u₁ == "") = true := by simp [hu₁]
  have hb₂ : ¬(u₂ == "") = true := by simp [hu₂]
  rw [processUrls_one cfg svc now u₁ hist hb₁, processUrls_one cfg svc now u₂ hist hb₂]
  rw [← hr, ← hi]
  refine ⟨fun hq => by simp [effExcludeFor, hq], ?_, ?_⟩
  · by_cases hres : (svc.rssParse u₁ cfg.proxy).isEmpty = true
    · simp [hres]
    · simp [hres]
  · by_cases hres : (svc.rssParse u₁ cfg.proxy).isEmpty = true
    · simp [hres, dispatchEffects, entryEffect]
    · simp [hres, dispatchEffects, entryEffect]

/-- Witness for C8 amended at concrete inputs: the same feed behind a
URL with and without an exclude parameter yields the same outcome and
dispatch effects, and a URL without the parameter uses the global
exclude. -/
theorem c8_witness :
    (effExcludeFor wCfg "http://h/f" = wCfg.globalExclude)
    ∧ (processUrls wCfg wSvc "t" ["http://h/f"] []).2
      = (processUrls wCfg wSvc "t" ["http://h/f?exclude=1080p"] []).2
    ∧ dispatchEffects (processUrls wCfg wSvc "t" ["http://h/f"] []).1
      = dispatchEffects (processUrls wCfg wSvc "t" ["http://h/f?exclude=1080p"] []).1 :=
  ⟨(c8_per_url_exclude_ignored wCfg wSvc "t" "http://h/f" "http://h/f"
      "http://h/f?exclude=1080p" [] (by decide) (by decide) rfl (by decide)).1 (by decide),
   (c8_per_url_exclude_ignored wCfg wSvc "t" "http://h/f" "http://h/f"
      "http://h/f?exclude=1080p" [] (by decide) (by decide) rfl (by decide)).2.1,
   (c8_per_url_exclude_ignored wCfg wSvc "t" "http://h/f" "http://h/f"
      "http://h/f?exclude=1080p" [] (by decide) (by decide) rfl (by decide)).2.2⟩

/-- C1 counterexample: with two configured URLs of which the first
yields no entries, the whole cycle stops at the failure log: the second
URL is never started and no save occurs, so the cycle does not continue
with the remaining URLs and does not end with one save. -/
theorem c1_counterexample :
    check { wCfg with address := "u1\nu2" }
        { wSvc with rssParse := fun url _ => if url == "u1" then [] else [wEntry] }
        "t" ⟨[], false⟩
      = ([.logRss "u1", .logEmptyRss "u1"], ⟨[], false⟩) := by
  decide

/-- C1 amended: when a non empty configured URL yields no feed entries,
the cycle logs the failure and returns at once: the trace is the trace
of the preceding successfully fetched URLs followed by the two log
lines of the failing URL, no save effect is emitted, and the plugin
state is left unchanged. -/
theorem c1_empty_feed_aborts (cfg : Config) (svc : Services) (now : String)
    (st : PState) (pre rest : List String) (u : String)
    (hsplit : splitChar '\n' cfg.address = pre ++ u :: rest)
    (hpre : ∀ v ∈ pre, v = "" ∨ svc.rssParse v cfg.proxy ≠ [])
    (hu : u ≠ "") (hres : svc.rssParse u cfg.proxy = []) :
    (check cfg svc now st).1
      = (processUrls cfg svc now pre (if st.clearflag then [] else st.stored)).1
        ++ [.logRss u, .logEmptyRss u]
    ∧ (check cfg svc now st).1.countP isSave = 0
    ∧ (check cfg svc now st).2 = st := by
  have haddr : ¬(cfg.address == "") = true := by
    intro hA
    have hA' : cfg.address = "" := by simpa using hA
    rw [hA'] at hsplit
    have h0 : splitChar '\n' "" = [""] := by decide
    rw [h0] at hsplit
    cases pre with
    | nil =>
      have : "" = u := (List.cons.injEq _ _ _ _).mp hsplit |>.1
      exact hu this.symm
    | cons a l =>
      have h2 : ([] : List String) = l ++ u :: rest :=
        (List.cons.injEq _ _ _ _).mp hsplit |>.2
      exact List.cons_ne_nil u rest (List.append_eq_nil.mp h2.symm).2
  rcases processUrls_ok_some cfg svc now pre
      (if st.clearflag then [] else st.stored) hpre with ⟨effs, hist₁, hpres⟩
  have hstep : processUrls cfg svc now (u :: rest) hist₁
      = ([.logRss u, .logEmptyRss u], none) := by
    simp only [processUrls]
    rw [if_neg (by simp [hu])]
    simp [hres]
  have hall : processUrls cfg svc now (splitChar '\n' cfg.address)
      (if st.clearflag then [] else st.stored)
      = (effs ++ [.logRss u, .logEmptyRss u], none) := by
    rw [hsplit, processUrls_split, hpres]
    show (effs ++ (processUrls cfg svc now (u :: rest) hist₁).1,
      (processUrls cfg svc now (u :: rest) hist₁).2) = _
    rw [hstep]
  have hcheck : check cfg svc now st = (effs ++ [.logRss u, .logEmptyRss u], st) := by
    simp only [check, haddr, if_false]
    rw [hall]
    simp
  refine ⟨?_, ?_, ?_⟩
  · rw [hcheck, hpres]
  · rw [hcheck]
    apply List.countP_eq_zero.mpr
    intro a ha hpa
    have haS : ∃ l, a = Effect.save l := by
      cases a <;> simp_all [isSave]
    rcases haS with ⟨l, rfl⟩
    rcases List.mem_append.mp ha with hx | hx
    · have := processUrls_effect_mem cfg svc now pre
        (if st.clearflag then [] else st.stored) (Effect.save l)
        (by rw [hpres]; exact hx)
      simp [cycleEffectOk] at this
    · simp at hx
  · rw [hcheck]

/-- Witness for C1 amended at a concrete input: the first of two URLs
yields no entries; the trace stops at the failure log, holds no save,
and the state is unchanged. -/
theorem c1_witness :
    (check { wCfg with address := "u1\nu2" }
        { wSvc with rssParse := fun url _ => if url == "u1" then [] else [wEntry] }
        "t" ⟨[], false⟩).1
      = (processUrls { wCfg with address := "u1\nu2" }
          { wSvc with rssParse := fun url _ => if url == "u1" then [] else [wEntry] }
          "t" [] (if (⟨[], false⟩ : PState).clearflag then [] else (⟨[], false⟩ : PState).stored)).1
        ++ [.logRss "u1", .logEmptyRss "u1"]
    ∧ (check { wCfg with address := "u1\nu2" }
          { wSvc with rssParse := fun url _ => if url == "u1" then [] else [wEntry] }
          "t" ⟨[], false⟩).1.countP isSave = 0
    ∧ (check { wCfg with address := "u1\nu2" }
        { wSvc with rssParse := fun url _ => if url == "u1" then [] else [wEntry] }
        "t" ⟨[], false⟩).2 = ⟨[], false⟩ :=
  c1_empty_feed_aborts { wCfg with address := "u1\nu2" }
    { wSvc with rssParse := fun url _ => if url == "u1" then [] else [wEntry] }
    "t" ⟨[], false⟩ [] ["u2"] "u1" (by decide) (by intro v hv; cases hv)
    (by decide) (by decide)

/-- C4 counterexample: a cycle that starts with the clear flag set but
aborts on an empty feed result ends with the flag still set, so the
flag is not reset at the end of every cycle that treated the history as
empty. -/
theorem c4_counterexample :
    (check { wCfg with address := "u1" } { wSvc with rssParse := fun _ _ => [] }
        "t" ⟨[wRec], true⟩).2.clearflag = true := by
  decide

/-- C4 amended: while the clear flag is set a cycle runs on an empty
effective history, so its trace does not depend on the stored records;
whenever a cycle performs its save the flag is reset to inactive; and a
cycle entered with the flag unset never discards history: the stored
collection afterwards is the prior collection with zero or more records
appended. -/
theorem c4_clear_flag (cfg : Config) (svc : Services) (now : String) :
    (∀ s₁ s₂ : List HistoryRecord,
      (check cfg svc now ⟨s₁, true⟩).1 = (check cfg svc now ⟨s₂, true⟩).1)
    ∧ (∀ st : PState, ∀ l : List HistoryRecord,
        Effect.save l ∈ (check cfg svc now st).1 →
          (check cfg svc now st).2.clearflag = false)
    ∧ (∀ s : List HistoryRecord,
        ((check cfg svc now ⟨s, false⟩).2).stored.take s.length = s) := by
  refine ⟨?_, ?_, ?_⟩
  · intro s₁ s₂
    by_cases hA : (cfg.address == "") = true
    · simp [check, hA]
    · simp only [check, hA, if_false]
      rcases hp : processUrls cfg svc now (splitChar '\n' cfg.address) [] with ⟨effs, out⟩
      simp only [PState.clearflag, if_true]
      rw [hp]
      cases out <;> rfl
  · intro st l hl
    by_cases hA : (cfg.address == "") = true
    · simp [check, hA] at hl
    · simp only [check, hA, if_false] at hl ⊢
      rcases hp : processUrls cfg svc now (splitChar '\n' cfg.address)
          (if st.clearflag then [] else st.stored) with ⟨effs, out⟩
      cases out with
      | none =>
        exfalso
        rw [hp] at hl
        simp at hl
        have := processUrls_effect_mem cfg svc now (splitChar '\n' cfg.address)
          (if st.clearflag then [] else st.stored) (Effect.save l)
          (by rw [hp]; exact hl)
        simp [cycleEffectOk] at this
      | some h => simp
  · intro s
    by_cases hA : (cfg.address == "") = true
    · simp [check, hA, List.take_length]
    · simp only [check, hA, if_false]
      rcases hp : processUrls cfg svc now (splitChar '\n' cfg.address)
          (if (⟨s, false⟩ : PState).clearflag then []
           else (⟨s, false⟩ : PState).stored) with ⟨effs, out⟩
      cases out with
      | none => simp [List.take_length]
      | some h =>
        have h2 : (processUrls cfg svc now (splitChar '\n' cfg.address) s).2 = some h := by
          have hred : (if (⟨s, false⟩ : PState).clearflag then []
              else (⟨s, false⟩ : PState).stored) = s := rfl
          rw [hred] at hp
          rw [hp]
        rcases processUrls_append cfg svc now (splitChar '\n' cfg.address) s h h2
          with ⟨tl, htl⟩
        simp only []
        rw [htl]
        simp [List.take_left]

/-- Witness for C4 amended at concrete inputs: the trace with the flag
set is independent of two distinct stored collections, a cycle that
saved has the flag reset, and a cycle with the flag unset only appends
to the stored collection. -/
theorem c4_witness :
    ((check wCfg wSvc "t" ⟨[wRec], true⟩).1 = (check wCfg wSvc "t" ⟨[], true⟩).1)
    ∧ (check wCfg wSvc "t" ⟨[], true⟩).2.clearflag = false
    ∧ ((check wCfg wSvc "t" ⟨[], false⟩).2).stored.take
        ([] : List HistoryRecord).length = [] :=
  ⟨(c4_clear_flag wCfg wSvc "t").1 [wRec] [],
   (c4_clear_flag wCfg wSvc "t").2.1 ⟨[], true⟩ [wRec] (by decide),
   (c4_clear_flag wCfg wSvc "t").2.2 []⟩

end SatoshiRss
